import Mathlib

/-!
Verification of the builder-chain options library (Go package `opt`, the
standalone builder-chain variant): descriptor chains, facet resolution by
delegation toward the root, the value-lookup precedence
flag > environment > default, per-type string conversion fixed at the
chain root, and the registry-driven two-phase parse lifecycle.

External collaborators (the `pflag` flag set and the process environment)
are modelled as explicit state; panics are modelled as `Except.error`.
-/

namespace Opt

/-- The closed set of option value types (`OptType` in the source:
`string | bool | int`). -/
inductive OptTy where
  | str
  | bool
  | int
deriving DecidableEq

/-- Semantic option values: the union of the three supported types. -/
inductive Value where
  | str (s : String)
  | bool (b : Bool)
  | int (i : Int)
deriving DecidableEq

/-- Go's zero value (`var zero T`) for each option type. -/
def OptTy.zero : OptTy → Value
  | .str => .str ""
  | .bool => .bool false
  | .int => .int 0

/-- The literals accepted by `strconv.ParseBool`; anything else is an
error, which the `BuildBool` converter turns into a panic (`none`). -/
def parseBool (s : String) : Option Bool :=
  if s = "1" ∨ s = "t" ∨ s = "T" ∨ s = "true" ∨ s = "TRUE" ∨ s = "True" then some true
  else if s = "0" ∨ s = "f" ∨ s = "F" ∨ s = "false" ∨ s = "FALSE" ∨ s = "False" then
    some false
  else none

/-- Value of a decimal digit run; `none` on a non-digit character. -/
def parseDigitsAux : List Char → Nat → Option Nat
  | [], acc => some acc
  | c :: cs, acc => if c.isDigit then parseDigitsAux cs (acc * 10 + (c.toNat - 48)) else none

/-- Model of `strconv.Atoi` (`ParseInt(s, 10, 0)` on a 64-bit platform): optional
sign, a nonempty digit run, and a 64-bit range check; any error makes the
`BuildInt` converter panic (`none`). -/
def atoi (s : String) : Option Int :=
  let p : Bool × List Char :=
    match s.toList with
    | [] => (false, [])
    | c :: rest =>
      if c = '-' then (true, rest)
      else if c = '+' then (false, rest)
      else (false, c :: rest)
  match p with
  | (_, []) => none
  | (neg, ds) =>
    match parseDigitsAux ds 0 with
    | none => none
    | some n =>
      let v : Int := if neg then -(n : Int) else (n : Int)
      if v < -(2 ^ 63) ∨ (2 ^ 63 - 1 : Int) < v then none else some v

/-- The per-type conversion fixed at chain-root construction by
`BuildString` / `BuildBool` / `BuildInt`; `none` models the panic raised
on a failed parse. -/
def convFunc : OptTy → String → Option Value
  | .str, s => some (.str s)
  | .bool, s => (parseBool s).map Value.bool
  | .int, s => (atoi s).map Value.int

/-- The fields of a flag link (`bFlag`): name, shorthand, and the
completion/validation annotations. -/
structure FlagFacet where
  flagName : String
  flagShorthand : String
  isDir : Bool
  isFile : Bool
  isRequired : Bool
deriving DecidableEq

/-- The exported flag option functions (`FlagIsDirName`, `FlagIsFileName`,
`FlagIsRequired`): the only `FlagOptFunc` values the package offers. -/
inductive FlagOptFunc where
  | flagIsDirName
  | flagIsFileName
  | flagIsRequired
deriving DecidableEq

/-- Effect of one flag option function on the freshly allocated flag link. -/
def FlagOptFunc.apply (f : FlagFacet) : FlagOptFunc → FlagFacet
  | .flagIsDirName => { f with isDir := true }
  | .flagIsFileName => { f with isFile := true }
  | .flagIsRequired => { f with isRequired := true }

/-- Model of `applyOpts`: fold the option functions, in order, over the new link. -/
def applyOpts (f : FlagFacet) (optFuncs : List FlagOptFunc) : FlagFacet :=
  optFuncs.foldl FlagOptFunc.apply f

/-- The descriptor chain: each link holds its predecessor (`up`).  The
root carries the key and (via its type tag) the converter; the other
links each carry one facet.  `bFlag.beforeParse` writes the key into an
empty `flagName` in place; the embedding computes that effective name at
registration time instead, which yields the same registrations. -/
inductive Builder where
  | root (key : String) (ty : OptTy)
  | flag (up : Builder) (f : FlagFacet)
  | env (up : Builder) (envName : String)
  | dflt (up : Builder) (defVal : String)
  | usage (up : Builder) (usageText : String)
deriving DecidableEq

/-- Model of `getKey`: defined at the root (`bRoot.getKey`), delegated by every
other link (`bCommon.getKey`). -/
def Builder.getKey : Builder → String
  | .root k _ => k
  | .flag up _ => up.getKey
  | .env up _ => up.getKey
  | .dflt up _ => up.getKey
  | .usage up _ => up.getKey

/-- The root's type tag; `getConvFunc` delegates to the root
(`bRoot.getConvFunc`), so the effective converter is `convFunc ∘ rootTy`. -/
def Builder.rootTy : Builder → OptTy
  | .root _ t => t
  | .flag up _ => up.rootTy
  | .env up _ => up.rootTy
  | .dflt up _ => up.rootTy
  | .usage up _ => up.rootTy

/-- Model of `getFlag`: the topmost flag link answers with its name and shorthand
(`ok = true`); other links delegate; the root answers `ok = false`. -/
def Builder.getFlag : Builder → Option (String × String)
  | .root _ _ => none
  | .flag _ f => some (f.flagName, f.flagShorthand)
  | .env up _ => up.getFlag
  | .dflt up _ => up.getFlag
  | .usage up _ => up.getFlag

/-- Model of `getEnv`: the topmost environment link answers; the root says unset. -/
def Builder.getEnv : Builder → Option String
  | .root _ _ => none
  | .flag up _ => up.getEnv
  | .env _ n => some n
  | .dflt up _ => up.getEnv
  | .usage up _ => up.getEnv

/-- Model of `getDefault`: the topmost default link answers; the root says unset. -/
def Builder.getDefault : Builder → Option String
  | .root _ _ => none
  | .flag up _ => up.getDefault
  | .env up _ => up.getDefault
  | .dflt _ v => some v
  | .usage up _ => up.getDefault

/-- Model of `getUsage`: the topmost usage link answers; the root says unset. -/
def Builder.getUsage : Builder → Option String
  | .root _ _ => none
  | .flag up _ => up.getUsage
  | .env up _ => up.getUsage
  | .dflt up _ => up.getUsage
  | .usage _ u => some u

/-- Model of `newFlagBuilder`: allocate a flag link over `b` and apply the option
functions to it before it is sealed into the chain. -/
def newFlagBuilder (b : Builder) (flagName flagShorthand : String)
    (optFuncs : List FlagOptFunc) : Builder :=
  .flag b (applyOpts ⟨flagName, flagShorthand, false, false, false⟩ optFuncs)

/-- The `Flag` chain call (identical on every link kind). -/
def Builder.Flag (b : Builder) (flagName : String) (optFuncs : List FlagOptFunc) :
    Builder :=
  newFlagBuilder b flagName "" optFuncs

/-- The `FlagP` chain call (flag with shorthand). -/
def Builder.FlagP (b : Builder) (flagName flagShorthand : String)
    (optFuncs : List FlagOptFunc) : Builder :=
  newFlagBuilder b flagName flagShorthand optFuncs

/-- The `Env` chain call: append an environment link with the literal name. -/
def Builder.Env (b : Builder) (envName : String) : Builder :=
  .env b envName

/-- The `Default` chain call: append a default link storing the raw text. -/
def Builder.Default (b : Builder) (v : String) : Builder :=
  .dflt b v

/-- The `Usage` chain call: append a usage link. -/
def Builder.Usage (b : Builder) (u : String) : Builder :=
  .usage b u

/-- Model of `BuildString`: root chain whose converter is the identity on strings. -/
def BuildString (key : String) : Builder :=
  .root key .str

/-- Model of `BuildBool`: root chain converting via `strconv.ParseBool`. -/
def BuildBool (key : String) : Builder :=
  .root key .bool

/-- Model of `BuildInt`: root chain converting via `strconv.Atoi`. -/
def BuildInt (key : String) : Builder :=
  .root key .int

/-- Model of `Build`: wrap the chain as a resolved option and append it to the
process-wide registry (`pkgSet`). -/
def Build (b : Builder) (pkgSet : List Builder) : Builder × List Builder :=
  (b, pkgSet ++ [b])

/-- One flag registered with the external `pflag` command-line flag set. -/
structure PflagFlag where
  name : String
  shorthand : String
  defVal : String
  usage : String
  value : String
  changed : Bool
  annDir : Bool
  annFile : Bool
  annRequired : Bool
deriving DecidableEq

/-- The external world consulted by `Lookup`: the `pflag` flag set and the
process environment. -/
structure Ext where
  pflag : List PflagFlag
  env : List (String × String)
deriving DecidableEq

/-- Model of `pflag.Lookup`: `nil` (`none`) when no flag of that name is registered. -/
def pflagLookup (ext : Ext) (name : String) : Option PflagFlag :=
  ext.pflag.find? (fun f => f.name == name)

/-- Model of `os.LookupEnv`. -/
def envLookup (ext : Ext) (name : String) : Option String :=
  (ext.env.find? (fun p => p.1 == name)).map Prod.snd

/-- The environment-then-default tail of the source-selection closure in
`opt.Lookup`. -/
def resolveEnvDefault (ext : Ext) (b : Builder) : Option String :=
  match b.getEnv with
  | some envName =>
    match envLookup ext envName with
    | some v => some v
    | none => b.getDefault
  | none => b.getDefault

/-- The source-selection closure inside `opt.Lookup`: the flag value when
the flag facet is set, registered, and explicitly changed; otherwise the
environment; otherwise the default; otherwise nothing. -/
def resolveString (ext : Ext) (b : Builder) : Option String :=
  match b.getFlag with
  | some (flagName, _) =>
    match pflagLookup ext flagName with
    | some f => if f.changed then some f.value else resolveEnvDefault ext b
    | none => resolveEnvDefault ext b
  | none => resolveEnvDefault ext b

/-- The panics the lookup path can raise: a failed type conversion, or
`MustLookup` on an absent option. -/
inductive OptPanic where
  | convFail (s : String)
  | missingOption
deriving DecidableEq

/-- Model of `opt.Lookup`: pick the winning text, convert it with the root's
converter (a failed conversion panics), or report `found = false` with
the type's zero value. -/
def Lookup (ext : Ext) (b : Builder) : Except OptPanic (Value × Bool) :=
  match resolveString ext b with
  | some str =>
    match convFunc b.rootTy str with
    | some v => .ok (v, true)
    | none => .error (.convFail str)
  | none => .ok (b.rootTy.zero, false)

/-- Model of `opt.MustLookup`: `Lookup`, then panic when `found` is false. -/
def MustLookup (ext : Ext) (b : Builder) : Except OptPanic Value :=
  match Lookup ext b with
  | .ok (v, true) => .ok v
  | .ok (_, false) => .error .missingOption
  | .error e => .error e

/-- Result of converting winning text `s` for an option of type `t`
(the conversion stage of `Lookup`). -/
def convResult (t : OptTy) (s : String) : Except OptPanic (Value × Bool) :=
  match convFunc t s with
  | some v => .ok (v, true)
  | none => .error (.convFail s)

/-- The flag source wins the resolution: a flag facet is set, the flag is
registered, and the library reports it explicitly changed. -/
def flagWins (ext : Ext) (b : Builder) : Bool :=
  match b.getFlag with
  | some (flagName, _) =>
    match pflagLookup ext flagName with
    | some f => f.changed
    | none => false
  | none => false

/-- The environment source supplies a value: an environment facet is set
and the variable is present in the process environment. -/
def envWins (ext : Ext) (b : Builder) : Bool :=
  match b.getEnv with
  | some envName => (envLookup ext envName).isSome
  | none => false

/-- Model of `pflag.StringP`: register a string flag whose initial value is its
default text and whose `Changed` state is false. -/
def pflagStringP (st : List PflagFlag) (name shorthand defVal usage : String) :
    List PflagFlag :=
  st ++ [⟨name, shorthand, defVal, usage, defVal, false, false, false, false⟩]

/-- Model of `cobra.MarkFlagDirname` on the command-line flag set. -/
def markDirname (st : List PflagFlag) (name : String) : List PflagFlag :=
  st.map fun f => if f.name == name then { f with annDir := true } else f

/-- Model of `cobra.MarkFlagFilename` on the command-line flag set. -/
def markFilename (st : List PflagFlag) (name : String) : List PflagFlag :=
  st.map fun f => if f.name == name then { f with annFile := true } else f

/-- Model of `cobra.MarkFlagRequired` on the command-line flag set. -/
def markRequired (st : List PflagFlag) (name : String) : List PflagFlag :=
  st.map fun f => if f.name == name then { f with annRequired := true } else f

/-- Model of `beforeParse` of one chain, threading the flag-registration state.
Delegation (`bCommon.beforeParse`) happens before a flag link's own work,
so flag links register bottom-up.  A flag link whose name is empty falls
back to the chain's key (`bFlag.beforeParse` writes it in place; here it
is computed) and skips registration entirely when that is also empty;
otherwise it registers the flag with the chain's current default and
usage text and applies its annotations.  `top` is the complete chain the
hook was started from (`bd` in the source). -/
def beforeParseAux (top : Builder) : Builder → List PflagFlag → List PflagFlag
  | .root _ _, st => st
  | .env up _, st => beforeParseAux top up st
  | .dflt up _, st => beforeParseAux top up st
  | .usage up _, st => beforeParseAux top up st
  | .flag up f, st =>
    let st1 := beforeParseAux top up st
    let name := if f.flagName = "" then top.getKey else f.flagName
    if name = "" then st1
    else
      let st2 := pflagStringP st1 name f.flagShorthand
        ((top.getDefault).getD "") ((top.getUsage).getD "")
      let st3 := if f.isDir then markDirname st2 name else st2
      let st4 := if f.isFile then markFilename st3 name else st3
      if f.isRequired then markRequired st4 name else st4

/-- Events observable during `Parse`: each option's two hooks (tagged
with the option's position in the registry) and the external
`pflag.Parse` step. -/
inductive Event where
  | beforeHook (i : Nat)
  | externalParse
  | afterHook (i : Nat)
deriving DecidableEq

/-- The first loop of `Parse`: run `beforeParse` on each registered
option in declaration order, threading the registration state and
recording one event per hook. -/
def beforePhase : List Builder → Nat → List PflagFlag → List PflagFlag × List Event
  | [], _, st => (st, [])
  | b :: rest, i, st =>
    let r := beforePhase rest (i + 1) (beforeParseAux b b st)
    (r.1, Event.beforeHook i :: r.2)

/-- Model of `pflag.Parse`: consume the supplied command-line arguments, marking
each registered flag that was supplied as `Changed` with its new value. -/
def pflagParse (args : List (String × String)) (st : List PflagFlag) :
    List PflagFlag :=
  args.foldl
    (fun st a =>
      st.map fun f => if f.name == a.1 then { f with value := a.2, changed := true } else f)
    st

/-- The second loop of `Parse`: the `afterParse` hooks in declaration
order; every implementation only delegates up the chain
(`bCommon.afterParse`), so the hook is a no-op and only events remain. -/
def afterPhase : List Builder → Nat → List Event
  | [], _ => []
  | _ :: rest, i => Event.afterHook i :: afterPhase rest (i + 1)

/-- Model of `Parse`: every before-parse hook in declaration order, then the
external `pflag.Parse` on the state those hooks produced, then every
after-parse hook in declaration order. -/
def Parse (pkgSet : List Builder) (args : List (String × String))
    (st : List PflagFlag) : List PflagFlag × List Event :=
  let r := beforePhase pkgSet 0 st
  (pflagParse args r.1, r.2 ++ [Event.externalParse] ++ afterPhase pkgSet 0)

/-- Every flag link's effective name — its own name, with the chain key
as fallback when empty — is empty, so before-parse registers nothing. -/
def noEffectiveFlagName (key : String) : Builder → Bool
  | .root _ _ => true
  | .flag up f =>
    ((if f.flagName = "" then key else f.flagName) == "") && noEffectiveFlagName key up
  | .env up _ => noEffectiveFlagName key up
  | .dflt up _ => noEffectiveFlagName key up
  | .usage up _ => noEffectiveFlagName key up

/-! ### Helper lemmas about the resolution pipeline -/

theorem lookup_eq_convResult (ext : Ext) (b : Builder) (s : String)
    (h : resolveString ext b = some s) :
    Lookup ext b = convResult b.rootTy s := by
  unfold Lookup convResult
  rw [h]

theorem lookup_eq_notFound (ext : Ext) (b : Builder)
    (h : resolveString ext b = none) :
    Lookup ext b = .ok (b.rootTy.zero, false) := by
  unfold Lookup
  rw [h]

theorem resolveString_no_flag (ext : Ext) (b : Builder) (h : b.getFlag = none) :
    resolveString ext b = resolveEnvDefault ext b := by
  unfold resolveString
  rw [h]

theorem resolveString_of_not_flagWins (ext : Ext) (b : Builder)
    (h : flagWins ext b = false) :
    resolveString ext b = resolveEnvDefault ext b := by
  unfold flagWins at h
  unfold resolveString
  cases hf : b.getFlag with
  | none => simp only [hf]
  | some p =>
    obtain ⟨fn, sh⟩ := p
    simp only [hf] at h ⊢
    cases hl : pflagLookup ext fn with
    | none => simp only [hl]
    | some f =>
      simp only [hl] at h ⊢
      simp [h]

theorem resolveEnvDefault_env_some (ext : Ext) (b : Builder) (en v : String)
    (he : b.getEnv = some en) (hv : envLookup ext en = some v) :
    resolveEnvDefault ext b = some v := by
  unfold resolveEnvDefault
  simp only [he, hv]

theorem resolveEnvDefault_of_not_envWins (ext : Ext) (b : Builder)
    (h : envWins ext b = false) :
    resolveEnvDefault ext b = b.getDefault := by
  unfold envWins at h
  unfold resolveEnvDefault
  cases he : b.getEnv with
  | none => simp only [he]
  | some en =>
    simp only [he] at h ⊢
    cases hv : envLookup ext en with
    | none => simp only [hv]
    | some v => rw [hv] at h; simp at h

/-! ### Claim theorems -/

/-- C1: for every built option, `Lookup` resolves by the fixed precedence
flag > environment > default — when a flag facet is set and the external
library reports the flag explicitly changed, the converted flag string is
returned; otherwise, when an environment facet is set and the variable is
present, the converted environment string; otherwise, when a default
facet is set, the converted default text; otherwise `found = false` with
the zero value. -/
theorem lookup_precedence (ext : Ext) (b : Builder) :
    (∀ fn sh f, b.getFlag = some (fn, sh) → pflagLookup ext fn = some f →
      f.changed = true → Lookup ext b = convResult b.rootTy f.value) ∧
    (flagWins ext b = false →
      ∀ en v, b.getEnv = some en → envLookup ext en = some v →
        Lookup ext b = convResult b.rootTy v) ∧
    (flagWins ext b = false → envWins ext b = false →
      ∀ d, b.getDefault = some d → Lookup ext b = convResult b.rootTy d) ∧
    (flagWins ext b = false → envWins ext b = false → b.getDefault = none →
      Lookup ext b = Except.ok (b.rootTy.zero, false)) := by
  refine ⟨?_, ?_, ?_, ?_⟩
  · intro fn sh f hf hl hc
    apply lookup_eq_convResult
    unfold resolveString
    simp only [hf, hl, hc, if_true]
  · intro hw en v he hv
    apply lookup_eq_convResult
    rw [resolveString_of_not_flagWins ext b hw]
    exact resolveEnvDefault_env_some ext b en v he hv
  · intro hw he d hd
    apply lookup_eq_convResult
    rw [resolveString_of_not_flagWins ext b hw,
      resolveEnvDefault_of_not_envWins ext b he]
    exact hd
  · intro hw he hd
    apply lookup_eq_notFound
    rw [resolveString_of_not_flagWins ext b hw,
      resolveEnvDefault_of_not_envWins ext b he]
    exact hd

/-- Fixture: a chain with all three facets. -/
def bAll : Builder :=
  (((BuildString "k").Flag "verbose" []).Env "EV").Default "dv"

/-- Fixture: the same chain without the default facet. -/
def bNoDefault : Builder :=
  ((BuildString "k").Flag "verbose" []).Env "EV"

/-- Fixture: the flag `verbose` registered and explicitly changed. -/
def extFlagChanged : Ext :=
  ⟨[⟨"verbose", "v", "dv", "us", "fval", true, false, false, false⟩], [("EV", "ev")]⟩

/-- Fixture: the flag `verbose` registered but not changed. -/
def extFlagIdle : Ext :=
  ⟨[⟨"verbose", "v", "dv", "us", "dv", false, false, false, false⟩], [("EV", "ev")]⟩

/-- Fixture: flag registered but not changed, environment empty. -/
def extNothing : Ext :=
  ⟨[⟨"verbose", "v", "dv", "us", "dv", false, false, false, false⟩], []⟩

/-- Witness for C1: all four precedence outcomes at concrete inputs. -/
theorem lookup_precedence_witness :
    Lookup extFlagChanged bAll = convResult OptTy.str "fval" ∧
    Lookup extFlagIdle bAll = convResult OptTy.str "ev" ∧
    Lookup extNothing bAll = convResult OptTy.str "dv" ∧
    Lookup extNothing bNoDefault = Except.ok (OptTy.str.zero, false) :=
  ⟨(lookup_precedence extFlagChanged bAll).1 "verbose" ""
      ⟨"verbose", "v", "dv", "us", "fval", true, false, false, false⟩ rfl rfl rfl,
    (lookup_precedence extFlagIdle bAll).2.1 rfl "EV" "ev" rfl rfl,
    (lookup_precedence extNothing bAll).2.2.1 rfl rfl "dv" rfl,
    (lookup_precedence extNothing bNoDefault).2.2.2 rfl rfl rfl⟩

/-- C2: `MustLookup` returns exactly `Lookup`'s value whenever `Lookup`
reports `found = true`, and fails with the MissingOption panic — never a
silently returned zero value — whenever `Lookup` reports `found = false`. -/
theorem mustLookup_spec (ext : Ext) (b : Builder) :
    (∀ v, Lookup ext b = .ok (v, true) → MustLookup ext b = .ok v) ∧
    (∀ v, Lookup ext b = .ok (v, false) → MustLookup ext b = .error .missingOption) := by
  constructor
  · intro v h
    unfold MustLookup
    rw [h]
  · intro v h
    unfold MustLookup
    rw [h]

/-- Witness for C2: a found option passes its value through, an absent
option panics with MissingOption. -/
theorem mustLookup_spec_witness :
    MustLookup ⟨[], []⟩ ((BuildString "k").Default "d") = .ok (.str "d") ∧
    MustLookup ⟨[], []⟩ (BuildString "k") = .error .missingOption :=
  ⟨(mustLookup_spec ⟨[], []⟩ ((BuildString "k").Default "d")).1 (.str "d") rfl,
    (mustLookup_spec ⟨[], []⟩ (BuildString "k")).2 (.str "") rfl⟩

/-- C7: type conversion is path-independent — two options with the same
root converter whose source selection yields the same winning text
produce the same `Lookup` result, no matter which source (flag,
environment, or default) supplied the text. -/
theorem conv_path_independent (b1 b2 : Builder) (e1 e2 : Ext) (s : String)
    (hty : b1.rootTy = b2.rootTy)
    (h1 : resolveString e1 b1 = some s) (h2 : resolveString e2 b2 = some s) :
    Lookup e1 b1 = Lookup e2 b2 := by
  rw [lookup_eq_convResult e1 b1 s h1, lookup_eq_convResult e2 b2 s h2, hty]

/-- Witness for C7: the text `7` read through the default path and
through the environment path of two int options gives equal results. -/
theorem conv_path_independent_witness :
    resolveString ⟨[], []⟩ ((BuildInt "k").Default "7") = some "7" ∧
    resolveString ⟨[], [("N", "7")]⟩ ((BuildInt "k").Env "N") = some "7" ∧
    Lookup ⟨[], []⟩ ((BuildInt "k").Default "7") =
      Lookup ⟨[], [("N", "7")]⟩ ((BuildInt "k").Env "N") :=
  ⟨rfl, rfl,
    conv_path_independent ((BuildInt "k").Default "7") ((BuildInt "k").Env "N")
      ⟨[], []⟩ ⟨[], [("N", "7")]⟩ "7" rfl rfl rfl⟩

/-- C9: when the chain has a flag facet but no flag of that name is
registered with the external library (`pflag.Lookup` returns nil, e.g.
before `Parse`), `Lookup` does not fail: the flag source is treated as
not supplied and resolution falls through to environment and default. -/
theorem unregistered_flag_falls_through (ext : Ext) (b : Builder) (fn sh : String)
    (hf : b.getFlag = some (fn, sh)) (hl : pflagLookup ext fn = none) :
    resolveString ext b = resolveEnvDefault ext b ∧
    Lookup ext b =
      (match resolveEnvDefault ext b with
       | some s => convResult b.rootTy s
       | none => Except.ok (b.rootTy.zero, false)) := by
  have h1 : resolveString ext b = resolveEnvDefault ext b := by
    unfold resolveString
    simp only [hf, hl]
  refine ⟨h1, ?_⟩
  cases hs : resolveEnvDefault ext b with
  | some s => rw [lookup_eq_convResult ext b s (h1.trans hs)]
  | none => rw [lookup_eq_notFound ext b (h1.trans hs)]

/-- Witness for C9: a flag-bearing chain looked up against an empty flag
set falls through to its default. -/
theorem unregistered_flag_falls_through_witness :
    resolveString ⟨[], []⟩ (((BuildString "k").Flag "fl" []).Default "d") =
      resolveEnvDefault ⟨[], []⟩ (((BuildString "k").Flag "fl" []).Default "d") ∧
    Lookup ⟨[], []⟩ (((BuildString "k").Flag "fl" []).Default "d") = .ok (.str "d", true) :=
  ⟨(unregistered_flag_falls_through ⟨[], []⟩
      (((BuildString "k").Flag "fl" []).Default "d") "fl" "" rfl rfl).1,
    ((unregistered_flag_falls_through ⟨[], []⟩
      (((BuildString "k").Flag "fl" []).Default "d") "fl" "" rfl rfl).2.trans rfl)⟩

/-- C10: for options rooted at `BuildString` the converter is the
identity, so `Lookup` never signals a conversion failure and returns any
supplied text unchanged with `found = true`. -/
theorem buildString_lookup_total (ext : Ext) (b : Builder)
    (h : b.rootTy = OptTy.str) :
    (∀ s, resolveString ext b = some s → Lookup ext b = .ok (.str s, true)) ∧
    (∀ e, Lookup ext b ≠ .error e) := by
  constructor
  · intro s hs
    rw [lookup_eq_convResult ext b s hs, h]
    rfl
  · intro e hcontra
    cases hs : resolveString ext b with
    | some s =>
      rw [lookup_eq_convResult ext b s hs, h] at hcontra
      simp [convResult, convFunc] at hcontra
    | none =>
      rw [lookup_eq_notFound ext b hs] at hcontra
      simp at hcontra

/-- Witness for C10: a string option returns its default text verbatim. -/
theorem buildString_lookup_total_witness :
    Lookup ⟨[], []⟩ ((BuildString "k").Default "hello") = .ok (.str "hello", true) :=
  (buildString_lookup_total ⟨[], []⟩ ((BuildString "k").Default "hello") rfl).1 "hello" rfl

theorem beforePhase_snd (l : List Builder) :
    ∀ (i : Nat) (st : List PflagFlag),
      (beforePhase l i st).2 = (List.range' i l.length).map Event.beforeHook := by
  induction l with
  | nil => intro i st; rfl
  | cons b rest ih =>
    intro i st
    simp [beforePhase, List.range'_succ, ih]

theorem afterPhase_eq (l : List Builder) :
    ∀ i : Nat, afterPhase l i = (List.range' i l.length).map Event.afterHook := by
  induction l with
  | nil => intro i; rfl
  | cons b rest ih =>
    intro i
    simp [afterPhase, List.range'_succ, ih]

/-- C3: `Parse` runs every registered option's before-parse hook in
declaration order, then the external argument-parsing step, then every
after-parse hook in declaration order.  The trace puts the single
`externalParse` event after all `beforeHook` events, so no before-parse
hook runs after the external parse; moreover the external parse consumes
exactly the flag-set state produced by the completed before-parse phase. -/
theorem parse_event_order (pkgSet : List Builder) (args : List (String × String))
    (st : List PflagFlag) :
    (Parse pkgSet args st).2 =
      ((List.range pkgSet.length).map Event.beforeHook) ++ [Event.externalParse] ++
        ((List.range pkgSet.length).map Event.afterHook) ∧
    (Parse pkgSet args st).1 = pflagParse args (beforePhase pkgSet 0 st).1 := by
  constructor
  · simp [Parse, beforePhase_snd, afterPhase_eq, List.range_eq_range']
  · rfl

theorem beforeParseAux_skip (top : Builder) :
    ∀ (b : Builder) (st : List PflagFlag),
      noEffectiveFlagName top.getKey b = true → beforeParseAux top b st = st := by
  intro b
  induction b with
  | root k t => intro st h; rfl
  | flag up f ih =>
    intro st h
    unfold noEffectiveFlagName at h
    rw [Bool.and_eq_true] at h
    obtain ⟨h1, h2⟩ := h
    rw [beq_iff_eq] at h1
    simp [beforeParseAux, h1, ih st h2]
  | env up n ih => intro st h; exact ih st h
  | dflt up v ih => intro st h; exact ih st h
  | usage up u ih => intro st h; exact ih st h

theorem getFlag_name_empty (key : String) :
    ∀ (b : Builder) (fn sh : String),
      noEffectiveFlagName key b = true → b.getFlag = some (fn, sh) → fn = "" := by
  intro b
  induction b with
  | root k t => intro fn sh h hf; simp [Builder.getFlag] at hf
  | flag up f ih =>
    intro fn sh h hf
    unfold noEffectiveFlagName at h
    rw [Bool.and_eq_true] at h
    have h1 := h.1
    rw [beq_iff_eq] at h1
    unfold Builder.getFlag at hf
    injection hf with hf
    have hfn : fn = f.flagName := (congrArg Prod.fst hf).symm
    by_cases hc : f.flagName = ""
    · rw [hfn, hc]
    · rw [if_neg hc] at h1; exact absurd h1 hc
  | env up n ih => intro fn sh h hf; exact ih fn sh h hf
  | dflt up v ih => intro fn sh h hf; exact ih fn sh h hf
  | usage up u ih => intro fn sh h hf; exact ih fn sh h hf

/-- C5: during the before-parse phase, an option whose chain's effective
flag name is empty (every flag link's name is empty and so is the key it
falls back to) registers nothing with the external flag library, and
against any flag set holding only nonempty names it resolves exactly
like an env/default-only option. -/
theorem empty_flag_name_skips_registration (b : Builder) (st : List PflagFlag)
    (h : noEffectiveFlagName b.getKey b = true) :
    beforeParseAux b b st = st ∧
    ∀ ext : Ext, (∀ f ∈ ext.pflag, f.name ≠ "") →
      resolveString ext b = resolveEnvDefault ext b := by
  refine ⟨beforeParseAux_skip b b st h, ?_⟩
  intro ext hext
  cases hf : b.getFlag with
  | none => exact resolveString_no_flag ext b hf
  | some p =>
    obtain ⟨fn, sh⟩ := p
    have hfn : fn = "" := getFlag_name_empty b.getKey b fn sh h hf
    subst hfn
    have hl : pflagLookup ext "" = none := by
      unfold pflagLookup
      refine List.find?_eq_none.mpr ?_
      intro f hm
      simpa using hext f hm
    unfold resolveString
    simp only [hf, hl]

/-- Fixture for C5: key and flag name both empty. -/
def bEmptyFlag : Builder :=
  (((BuildString "").Flag "" []).Env "E").Default "dv"

/-- Witness for C5: the chain with empty flag name and empty key
registers nothing and resolves from the environment. -/
theorem empty_flag_name_skips_registration_witness :
    beforeParseAux bEmptyFlag bEmptyFlag [] = [] ∧
    resolveString ⟨[], [("E", "ev")]⟩ bEmptyFlag =
      resolveEnvDefault ⟨[], [("E", "ev")]⟩ bEmptyFlag :=
  ⟨(empty_flag_name_skips_registration bEmptyFlag [] rfl).1,
    (empty_flag_name_skips_registration bEmptyFlag [] rfl).2 ⟨[], [("E", "ev")]⟩
      (by simp)⟩

/-- C6: every configuration call returns a new chain value and leaves the
receiver's facets unchanged: siblings diverging from a shared prefix each
observe exactly their own facet, the shared prefix's facets are
independent of either sibling, each call overrides only its own facet,
and `Build` returns the chain unchanged while only appending to the
registry. -/
theorem chain_immutable (p : Builder) (x d1 d2 u fn sh : String)
    (opts : List FlagOptFunc) (pkgSet : List Builder) :
    (((p.Env x).Default d1).getDefault = some d1) ∧
    (((p.Env x).Default d2).getDefault = some d2) ∧
    (((p.Env x).Default d1).getEnv = some x) ∧
    (((p.Env x).Default d2).getEnv = some x) ∧
    ((p.Env x).getDefault = p.getDefault) ∧
    ((p.Env x).getFlag = p.getFlag) ∧
    ((p.Env x).getUsage = p.getUsage) ∧
    ((p.Env x).getKey = p.getKey) ∧
    ((p.Default d1).getEnv = p.getEnv) ∧
    ((p.Default d1).getFlag = p.getFlag) ∧
    ((p.Default d1).getUsage = p.getUsage) ∧
    ((p.Usage u).getDefault = p.getDefault) ∧
    ((p.Usage u).getEnv = p.getEnv) ∧
    ((p.Usage u).getFlag = p.getFlag) ∧
    ((p.FlagP fn sh opts).getEnv = p.getEnv) ∧
    ((p.FlagP fn sh opts).getDefault = p.getDefault) ∧
    ((p.FlagP fn sh opts).getUsage = p.getUsage) ∧
    ((p.Flag fn opts).getEnv = p.getEnv) ∧
    ((p.Flag fn opts).getDefault = p.getDefault) ∧
    ((Build ((p.Env x).Default d1) pkgSet).1 = (p.Env x).Default d1) ∧
    ((Build ((p.Env x).Default d1) pkgSet).2 = pkgSet ++ [(p.Env x).Default d1]) :=
  ⟨rfl, rfl, rfl, rfl, rfl, rfl, rfl, rfl, rfl, rfl, rfl, rfl, rfl, rfl, rfl,
    rfl, rfl, rfl, rfl, rfl, rfl⟩

/-- C8: the option `BuildInt("retries").Env("RETRIES").Default("3").Build()`
with no flag bound — `Lookup` returns `(3, true)` when `RETRIES` is unset
and `(5, true)` when `RETRIES` is set to `5`. -/
theorem retries_example (ext : Ext) (pkgSet : List Builder) :
    (envLookup ext "RETRIES" = none →
      Lookup ext (Build (((BuildInt "retries").Env "RETRIES").Default "3") pkgSet).1 =
        .ok (.int 3, true)) ∧
    (envLookup ext "RETRIES" = some "5" →
      Lookup ext (Build (((BuildInt "retries").Env "RETRIES").Default "3") pkgSet).1 =
        .ok (.int 5, true)) := by
  constructor
  · intro h
    show Lookup ext (((BuildInt "retries").Env "RETRIES").Default "3") = _
    have hr : resolveString ext (((BuildInt "retries").Env "RETRIES").Default "3") =
        some "3" := by
      rw [resolveString_no_flag ext (((BuildInt "retries").Env "RETRIES").Default "3") rfl]
      unfold resolveEnvDefault
      simp only [Builder.Default, Builder.Env, BuildInt, Builder.getEnv,
        Builder.getDefault, h]
    rw [lookup_eq_convResult ext _ _ hr]
    rfl
  · intro h
    show Lookup ext (((BuildInt "retries").Env "RETRIES").Default "3") = _
    have hr : resolveString ext (((BuildInt "retries").Env "RETRIES").Default "3") =
        some "5" := by
      rw [resolveString_no_flag ext (((BuildInt "retries").Env "RETRIES").Default "3") rfl]
      exact resolveEnvDefault_env_some ext (((BuildInt "retries").Env "RETRIES").Default "3") "RETRIES" "5" rfl h
    rw [lookup_eq_convResult ext _ _ hr]
    rfl

/-- Witness for C8: concrete environments with `RETRIES` unset and with
`RETRIES=5`. -/
theorem retries_example_witness :
    Lookup ⟨[], []⟩ (Build (((BuildInt "retries").Env "RETRIES").Default "3") []).1 =
      .ok (.int 3, true) ∧
    Lookup ⟨[], [("RETRIES", "5")]⟩
        (Build (((BuildInt "retries").Env "RETRIES").Default "3") []).1 =
      .ok (.int 5, true) :=
  ⟨(retries_example ⟨[], []⟩ []).1 rfl,
    (retries_example ⟨[], [("RETRIES", "5")]⟩ []).2 rfl⟩

/-- Counterexample to C4 as stated: constructing flag and environment
bindings with empty names does not fail at the `Flag`/`Env` call — each
call returns an ordinary chain link carrying the empty name, and the
resulting option is usable by `Parse` and `Lookup` without error. -/
theorem empty_name_construction_cex :
    ((BuildString "k").Env "" = Builder.env (Builder.root "k" OptTy.str) "") ∧
    ((((BuildString "k").Env "").Default "d").getEnv = some "") ∧
    (Lookup ⟨[], []⟩ (((BuildString "k").Env "").Default "d") = .ok (.str "d", true)) ∧
    (((BuildString "k").Flag "" []).getFlag = some ("", "")) ∧
    (beforeParseAux ((BuildString "").Flag "" []) ((BuildString "").Flag "" []) [] = []) ∧
    (Lookup ⟨[], []⟩ ((BuildString "").Flag "" []) = .ok (.str "", false)) :=
  ⟨rfl, rfl, rfl, rfl, rfl, rfl⟩

/-- C4 amended: `Flag`/`FlagP`/`Env` accept empty names without failing;
an empty environment name is carried verbatim, and an empty flag name
falls back to the chain's key during before-parse, with flag
registration skipped entirely when that key is also empty. -/
theorem empty_name_semantics (b : Builder) (st : List PflagFlag) :
    ((b.Env "").getEnv = some "") ∧
    ((b.Flag "" []).getFlag = some ("", "")) ∧
    (beforeParseAux (b.Flag "" []) (b.Flag "" []) st =
      (if b.getKey = "" then beforeParseAux (b.Flag "" []) b st
       else pflagStringP (beforeParseAux (b.Flag "" []) b st) b.getKey ""
         ((b.getDefault).getD "") ((b.getUsage).getD ""))) := by
  refine ⟨rfl, rfl, ?_⟩
  by_cases hk : b.getKey = "" <;>
    simp [beforeParseAux, Builder.Flag, newFlagBuilder, applyOpts, Builder.getKey,
      Builder.getDefault, Builder.getUsage, hk]

end Opt
